import Mathlib

/-!
Verification development for the `go-web-crawler` repository.

The embedding below models the most complete crawler variant in
`src/crawler.go` (the revision defining `Crawler` with `ignoreSuffixes`,
`totalCrawls`, `matchesIgnoreSuffix`, `New`, `addSite`, `Start`, `Crawl`,
`Wait`) together with the pure link-extraction functions
`FindRelativeLinks` and `FindAbsoluteLinks`.

Go's `regexp` package (RE2 syntax, leftmost match, and among the matches at
the leftmost position the one a backtracking search would find first) is
embedded as a small regex AST together with a backtracking matcher that
returns the possible remainders in backtracking-preference order; the two
concrete patterns of the source are built as ASTs mirroring the pattern
strings character by character.
-/

namespace Crawler

/-! ## Regular expressions (embedding of Go `regexp` for the two source patterns)

`Re` is the abstract syntax of the regular-expression fragment used by the
source: character classes, literal strings, concatenation, prioritized
alternation (`a` preferred over `b`, which models greedy `?` as
`alt r eps`), and greedy Kleene star. -/

inductive Re where
  | eps : Re
  | cls (p : Char → Bool) : Re
  | str (cs : List Char) : Re
  | cat (a b : Re) : Re
  | alt (a b : Re) : Re
  | star (a : Re) : Re

/-- Backtracking matcher: `matchRe fuel re s` returns the list of possible
remainders of `s` after matching a prefix against `re`, in
backtracking-preference order (greedy: longer star/option matches first).
Star iterations that consume nothing are discarded, as in RE2, where an
empty star iteration ends the loop.  `fuel` bounds the recursion depth
(structurally, so the definition computes by kernel reduction); the caller
`firstRem` passes a fuel that dominates the recursion depth for the
patterns of this file, so the bound is never hit. -/
def matchRe : Nat → Re → List Char → List (List Char)
  | 0, _, _ => []
  | _ + 1, .eps, s => [s]
  | _ + 1, .cls _, [] => []
  | _ + 1, .cls p, c :: s => if p c then [s] else []
  | _ + 1, .str cs, s => if cs.isPrefixOf s then [s.drop cs.length] else []
  | n + 1, .cat a b, s => (matchRe n a s).flatMap (matchRe n b)
  | n + 1, .alt a b, s => matchRe n a s ++ matchRe n b s
  | n + 1, .star a, s =>
      ((matchRe n a s).filter (fun r => r != s)).flatMap
        (fun r => matchRe n (.star a) r) ++ [s]

/-- Size of a regex, used to budget the matcher's recursion depth. -/
def reSize : Re → Nat
  | .eps => 1
  | .cls _ => 1
  | .str _ => 1
  | .cat a b => reSize a + reSize b + 1
  | .alt a b => reSize a + reSize b + 1
  | .star a => reSize a + 1

/-- The backtracking-first match of `re` at the very start of `s`:
`some r` when `re` matches a prefix of `s` leaving remainder `r`
(the remainder the backtracking search finds first), `none` when `re`
does not match at the start of `s`.  The fuel `(reSize re + 2) *
(s.length + 2) * (s.length + 2)` dominates the backtracking depth for
star-nesting depth up to two, which covers every pattern built in this
file. -/
def firstRem (re : Re) (s : List Char) : Option (List Char) :=
  (matchRe ((reSize re + 2) * (s.length + 2) * (s.length + 2)) re s).head?

/-- Embedding of `regexp.FindAllStringSubmatch(html, -1)` restricted to what
the source consumes: the list of (start position, matched text) pairs of the
successive non-overlapping leftmost matches, scanning left to right and
resuming after the end of each match (after an empty match the scan advances
one character, as Go does).  `fuel` bounds the number of scan steps; the
callers pass `s.length + 1`, which suffices since every step either consumes
the match or advances one position. -/
def scanAll (re : Re) : Nat → Nat → List Char → List (Nat × List Char)
  | 0, _, _ => []
  | fuel + 1, pos, s =>
      match firstRem re s with
      | some r =>
          if r.length < s.length then
            (pos, s.take (s.length - r.length))
              :: scanAll re fuel (pos + (s.length - r.length)) r
          else
            (pos, s.take (s.length - r.length))
              :: scanAll re fuel (pos + 1) (s.drop 1)
      | none =>
          if s.isEmpty then [] else scanAll re fuel (pos + 1) (s.drop 1)

/-- RE2 word character `\w` = `[0-9A-Za-z_]`. -/
def isWordCh (c : Char) : Bool := c.isAlpha || c.isDigit || c == '_'

/-- RE2 whitespace `\s` = `[\t\n\f\r ]`. -/
def isSpaceCh (c : Char) : Bool :=
  c == '\t' || c == '\n' || c == '\x0c' || c == '\r' || c == ' '

/-- Character class `[-\w\d_/\.]` of the source's `relativePattern`. -/
def relCls (c : Char) : Bool :=
  c == '-' || isWordCh c || c.isDigit || c == '_' || c == '/' || c == '.'

/-- `r+` desugars to `r` followed by `r*`. -/
def plusRe (r : Re) : Re := .cat r (.star r)

/-- `r?` desugars to the prioritized alternation of `r` and the empty
regex (greedy: presence preferred). -/
def optRe (r : Re) : Re := .alt r .eps

/-- The source's `relativePattern`: `href="(/[-\w\d_/\.]+)"`.
Capture group 1 is everything between the quotes. -/
def relativeRe : Re :=
  .cat (.str "href=\"".data)
    (.cat (.cat (.cls (fun c => c == '/')) (plusRe (.cls relCls)))
      (.cls (fun c => c == '"')))

/-- `(http[s]?:\/\/)` of the source's `absolutePattern`. -/
def schemeRe : Re :=
  .cat (.str "http".data) (.cat (optRe (.cls (fun c => c == 's'))) (.str "://".data))

/-- `([^\s\/]*\.)?` of the source's `absolutePattern` (optional subdomain
part: any run of non-space non-slash characters ending in a literal dot). -/
def subdomRe : Re :=
  optRe (.cat (.star (.cls (fun c => !isSpaceCh c && c != '/')))
    (.cls (fun c => c == '.')))

/-- `(\/[^\s]*)*` of the source's `absolutePattern` (path segments). -/
def pathRe : Re :=
  .star (.cat (.cls (fun c => c == '/')) (.star (.cls (fun c => !isSpaceCh c))))

/-- A single character of the caller-supplied domain string, spliced into
the pattern text unescaped exactly as the source's `fmt.Sprintf` does,
interpreted within the metacharacter-free fragment guarded by
`compileDomain` below: under RE2, `.` matches any character except newline,
and a character that is not an RE2 metacharacter denotes itself.  (Domains
containing other RE2 metacharacters are outside this fragment; they are
handled — as a compile failure — by `compileDomain`, never by this
function.) -/
def spliceChar (c : Char) : Re :=
  if c == '.' then .cls (fun d => d != '\n') else .cls (fun d => d == c)

/-- The caller-supplied domain string read as the regex text the source
splices into `absolutePattern`, for domains within the fragment guarded by
`compileDomain`. -/
def spliceRe (d : String) : Re :=
  d.data.foldr (fun c acc => Re.cat (spliceChar c) acc) .eps

/-- The RE2 metacharacters other than `.` (whose wildcard meaning
`spliceChar` models): a spliced domain containing one of these changes how
the pattern text parses, or makes it fail to parse altogether. -/
def isRe2Meta (c : Char) : Bool :=
  c == '(' || c == ')' || c == '[' || c == ']' || c == '{' || c == '}' ||
  c == '*' || c == '+' || c == '?' || c == '|' || c == '^' || c == '$' ||
  c == '\\'

/-- The `regexp.MustCompile` step of `FindAbsoluteLinks` as it acts on the
spliced domain text (crawler.go:388-391), with `none` modelling the panic:
a domain made of ordinary literal characters and `.` compiles to
`spliceRe`; a domain containing another RE2 metacharacter is outside the
fragment this file models and is mapped to `none` — exact for a domain
with an unbalanced `(` (the concrete input used below), which leaves the
whole `absolutePattern` with an unmatched parenthesis, so RE2 parsing
fails and `regexp.MustCompile` panics. -/
def compileDomain (d : String) : Option Re :=
  if d.data.all (fun c => !isRe2Meta c) then some (spliceRe d) else none

/-- The source's default domain matcher `([^:\/\s]+)`, used when the
domain pointer is nil. -/
def defaultDomRe : Re :=
  plusRe (.cls (fun c => !isSpaceCh c && c != ':' && c != '/'))

/-- The source's `absolutePattern`:
`href="((http[s]?:\/\/)([^\s\/]*\.)?D(\/[^\s]*)*)"` where `D` is the spliced
domain text. Capture group 1 is everything between the quotes. -/
def absoluteRe (domRe : Re) : Re :=
  .cat (.str "href=\"".data)
    (.cat (.cat schemeRe (.cat subdomRe (.cat domRe pathRe)))
      (.cls (fun c => c == '"')))

/-- Capture group 1 of both source patterns: the matched text without the
6-character `href="` opening and the closing `"`. -/
def group1 (m : List Char) : List Char := (m.drop 6).dropLast

/-- The source's `allMatches := re.FindAllStringSubmatch(html, -1)` for the
relative pattern: positions and texts of the successive matches. -/
def relAllMatches (html : String) : List (Nat × List Char) :=
  scanAll relativeRe (html.data.length + 1) 0 html.data

/-- Embedding of the source's `FindRelativeLinks` (crawler.go:361-373):
the capture-group-1 text of each successive leftmost match of
`relativePattern` in `html`. -/
def FindRelativeLinks (html : String) : List String :=
  (relAllMatches html).map (fun m => String.mk (group1 m.2))

/-- The domain sub-pattern chosen at crawler.go:380-383: the default matcher
for a nil pointer, the spliced caller string otherwise. -/
def absDomRe (domain : Option String) : Re :=
  match domain with
  | none => defaultDomRe
  | some d => spliceRe d

/-- The source's `allMatches := re.FindAllStringSubmatch(html, -1)` for the
absolute pattern: positions and texts of the successive matches. -/
def absAllMatches (html : String) (domain : Option String) : List (Nat × List Char) :=
  scanAll (absoluteRe (absDomRe domain)) (html.data.length + 1) 0 html.data

/-- Embedding of the source's `FindAbsoluteLinks` (crawler.go:377-402) on
the fragment where the spliced pattern compiles (every filter the
repository passes does): the `Option String` argument models the `*string`
domain pointer; `none` selects the default domain matcher, `some d` splices
`d` into the pattern.  The `regexp.MustCompile` call — which panics on a
filter whose spliced pattern does not parse as RE2 — is carried by
`FindAbsoluteLinksChecked` below, which agrees with this function whenever
the compile succeeds. -/
def FindAbsoluteLinks (html : String) (domain : Option String) : List String :=
  (absAllMatches html domain).map (fun m => String.mk (group1 m.2))

/-- The whole compiled pattern of `FindAbsoluteLinks`: the
`regexp.MustCompile(absolutePattern)` call of crawler.go:391, with `none`
modelling the panic on a filter whose spliced pattern does not parse (the
nil-pointer default pattern always compiles). -/
def MustCompileAbsolute (domain : Option String) : Option Re :=
  match domain with
  | none => some (absoluteRe defaultDomRe)
  | some d => (compileDomain d).map absoluteRe

/-- The full `FindAbsoluteLinks` pipeline including the compile step:
`none` models the `regexp.MustCompile` panic; on success the scan is
exactly that of `FindAbsoluteLinks`. -/
def FindAbsoluteLinksChecked (html : String) (domain : Option String) :
    Option (List String) :=
  (MustCompileAbsolute domain).map
    (fun re => (scanAll re (html.data.length + 1) 0 html.data).map
      (fun m => String.mk (group1 m.2)))

/-! ## Crawler state and engine (embedding of crawler.go:156-310)

The `Crawler` struct's `sync.Map`s are modelled as association/key lists,
the buffered `urls` channel as a FIFO list with its capacity, and the
`sync.WaitGroup` by the cumulative numbers of `Add(1)` and `Done()` calls
(`adds`, `dones`); `Wait` returns exactly when they balance.  `fetchLog` is
the per-URL fetch instrumentation: it records each `http.Get` call in
order. -/

structure CrawlerS where
  baseSite : String := ""
  domain : String := ""
  urls : List String := []
  urlsCap : Nat := 0
  visited : List String := []
  sitemap : List (String × List String) := []
  adds : Nat := 0
  dones : Nat := 0
  totalCrawls : Nat := 0
  ignoreSuffixes : List String := []
  fetchLog : List String := []
  deriving Repr, DecidableEq

/-- `MAX_CHAN_URLS` (crawler.go:156). -/
def MAX_CHAN_URLS : Nat := 100

/-- Go's `new(Crawler)` zero value. -/
def zeroValue : CrawlerS :=
  { baseSite := "", domain := "", urls := [], urlsCap := 0, visited := [],
    sitemap := [], adds := 0, dones := 0, totalCrawls := 0,
    ignoreSuffixes := [], fetchLog := [] }

/-- Embedding of `(c *Crawler) New(baseSite)` (crawler.go:193-211): a `none`
receiver models the nil pointer, for which a zero-valued `Crawler` is
allocated; the base site is stored, the domain is hardcoded to
`"monzo.com"` (the source's TODO), a fresh buffered channel of capacity
`MAX_CHAN_URLS` is created and the ignore-suffix list initialised. -/
def New (c : Option CrawlerS) (baseSite : String) : CrawlerS :=
  let c := match c with
    | none => zeroValue
    | some c => c
  { c with
    baseSite := baseSite
    domain := "monzo.com"
    urls := []
    urlsCap := MAX_CHAN_URLS
    ignoreSuffixes := ["pdf", "png", "jpeg"] }

/-- Embedding of `addSite` (crawler.go:214-218): `visited.Store(site, true)`
(key insertion), `urls <- site` (enqueue), `wg.Add(1)`. -/
def addSite (c : CrawlerS) (site : String) : CrawlerS :=
  { c with
    visited := if c.visited.contains site then c.visited else c.visited ++ [site]
    urls := c.urls ++ [site]
    adds := c.adds + 1 }

/-- Embedding of `Start` (crawler.go:221-226): claim and enqueue the seed
(the spawned `go c.Crawl()` is executed by `runCrawl`). -/
def Start (c : CrawlerS) : CrawlerS := addSite c c.baseSite

/-- Embedding of `matchesIgnoreSuffix` (crawler.go:228-236):
`strings.HasSuffix(url, ext)` for some configured suffix (case-sensitive). -/
def matchesIgnoreSuffix (c : CrawlerS) (url : String) : Bool :=
  c.ignoreSuffixes.any (fun ext => ext.data.isSuffixOf url.data)

/-- Outcome of the `http.Get` call as the core observes it: either a
transport error (`err != nil`), or a response carrying the HTTP status code
and the result of reading the body (`none` models an `ioutil.ReadAll`
error).  Note the source never inspects the status code. -/
inductive FetchOutcome where
  | transportError : FetchOutcome
  | response (statusCode : Nat) (body : Option String) : FetchOutcome

/-- The source's error values (crawler.go:139-148). -/
inductive CrawlError where
  | http404 (url : String) : CrawlError
  | invalidHTMLContent (url : String) : CrawlError
  deriving Repr, DecidableEq

/-- `sync.Map.Store`: insert-or-overwrite; lookups see the latest binding. -/
def mapStore (m : List (String × List String)) (k : String) (v : List String) :
    List (String × List String) :=
  (k, v) :: m.filter (fun p => p.1 != k)

/-- The child list built at crawler.go:277-285: relative links prefixed with
`"https://" + domain`, followed by the domain-filtered absolute links,
verbatim with duplicates. -/
def mkChildren (domain : String) (html : String) : List String :=
  (FindRelativeLinks html).map (fun x => "https://" ++ domain ++ x)
    ++ FindAbsoluteLinks html (some domain)

/-- `deferred c.wg.Done()` (crawler.go:247): runs exactly once on every
exit path of `Crawl`. -/
def finishTask (c : CrawlerS) : CrawlerS := { c with dones := c.dones + 1 }

/-- The `for` loop over the children (crawler.go:290-297): `visited.Load(x)`
and, when absent, `addSite(x)` — sequentially atomic here; the interleaved
version of this exact loop is the `Race` model below. -/
def claimLoop : List String → CrawlerS → CrawlerS
  | [], c => c
  | x :: xs, c => claimLoop xs (if c.visited.contains x then c else addSite c x)

/-- The tail of a successful `Crawl` task (crawler.go:277-299): build the
child list, store the sitemap entry for the current URL, run the
visited-check/claim loop over the children, and bump `totalCrawls`. -/
def successBody (url html : String) (c : CrawlerS) : CrawlerS :=
  let children := mkChildren c.domain html
  let c := { c with sitemap := mapStore c.sitemap url children }
  let c := claimLoop children c
  { c with totalCrawls := c.totalCrawls + 1 }

/-- Embedding of the body of `Crawl` (crawler.go:243-305) after the URL has
been received from the channel, for one task: the ignore-suffix early
return, the `http.Get` (recorded in `fetchLog`), the body read, and on
success the `successBody` tail.  The deferred `wg.Done()` is applied on
every exit path. -/
def crawlBody (fetch : String → FetchOutcome) (url : String) (c : CrawlerS) :
    CrawlerS × Option CrawlError :=
  if matchesIgnoreSuffix c url then
    (finishTask c, none)
  else
    let c := { c with fetchLog := c.fetchLog ++ [url] }
    match fetch url with
    | .transportError => (finishTask c, some (.http404 url))
    | .response _ body =>
        match body with
        | none => (finishTask c, some (.invalidHTMLContent url))
        | some html => (finishTask (successBody url html c), none)

/-- One `Crawl` task (crawler.go:243-305): receive a URL from the `urls`
channel (blocked — `none` — when the channel is empty) and run the body. -/
def crawlStep (fetch : String → FetchOutcome) (c : CrawlerS) :
    Option (CrawlerS × Option CrawlError) :=
  match c.urls with
  | [] => none
  | url :: rest => some (crawlBody fetch url { c with urls := rest })

/-- Sequential executor of the spawned `Crawl` tasks: run tasks one at a
time until the channel is empty (or the step budget runs out). -/
def runCrawl (fetch : String → FetchOutcome) : Nat → CrawlerS → CrawlerS
  | 0, c => c
  | n + 1, c =>
      match crawlStep fetch c with
      | none => c
      | some (c2, _) => runCrawl fetch n c2

/-- `sync.WaitGroup.Wait` (crawler.go:308-310) returns exactly when every
`Add(1)` has been matched by a `Done()`. -/
def waitCanReturn (c : CrawlerS) : Bool := c.adds == c.dones

end Crawler

namespace Race

/-! ## Interleaving model of the visited check and claim

The child loop of `Crawl` (crawler.go:290-297) performs
`c.visited.Load(x)` and, when absent, `c.addSite(x)` (`visited.Store`,
channel send, `wg.Add`, crawler.go:214-218) followed by `go c.Crawl()`;
the spawned task receives from the channel (crawler.go:248), calls
`http.Get` (crawler.go:258) and stores the sitemap entry
(crawler.go:286).  Each of these is a separate step of the concurrent
task, so concurrent tasks may interleave between the `Load` and the
`Store`.  A task is a program counter over these steps: -/

inductive Phase where
  | check (x : String) : Phase
  | claim (x : String) : Phase
  | recv : Phase
  | doFetch (x : String) : Phase
  | doStore (x : String) : Phase
  | done : Phase
  deriving Repr, DecidableEq

/-- Shared state of the interleaving model: the visited key set, the
`urls` channel contents, the per-task program counters, and the logs of
`http.Get` calls and `sitemap.Store` calls (per spec §8, the fetcher is
instrumented with a per-URL call log). -/
structure RState where
  visited : List String := []
  queue : List String := []
  tasks : List Phase := []
  fetchLog : List String := []
  storeLog : List String := []
  deriving Repr, DecidableEq

/-- One atomic step of task `i` (no-op when the task is done, absent, or
blocked on an empty channel):
`check x` executes the `visited.Load(x)` of crawler.go:291;
`claim x` executes `addSite(x)` (crawler.go:214-217) and spawns a new task
(crawler.go:295); `recv` receives from the channel (crawler.go:248);
`doFetch x` calls `http.Get(x)` (crawler.go:258); `doStore x` stores the
sitemap entry for `x` (crawler.go:286). -/
def step (s : RState) (i : Nat) : RState :=
  match s.tasks[i]? with
  | some (.check x) =>
      if s.visited.contains x then { s with tasks := s.tasks.set i .done }
      else { s with tasks := s.tasks.set i (.claim x) }
  | some (.claim x) =>
      { s with
        visited := if s.visited.contains x then s.visited else s.visited ++ [x]
        queue := s.queue ++ [x]
        tasks := (s.tasks.set i .done) ++ [.recv] }
  | some .recv =>
      match s.queue with
      | [] => s
      | y :: q => { s with queue := q, tasks := s.tasks.set i (.doFetch y) }
  | some (.doFetch y) =>
      { s with fetchLog := s.fetchLog ++ [y], tasks := s.tasks.set i (.doStore y) }
  | some (.doStore y) =>
      { s with storeLog := s.storeLog ++ [y], tasks := s.tasks.set i .done }
  | some .done => s
  | none => s

/-- Run the steps of the given schedule (a list of task indices). -/
def run (sched : List Nat) (s : RState) : RState := sched.foldl step s

/-- Two concurrent tasks that have each just discovered the yet-unvisited
URL `"u"` in their children list and are about to execute the
`visited.Load` of crawler.go:291. -/
def twoTasksInit : RState := { tasks := [.check "u", .check "u"] }

/-- The schedule in which both tasks run their `Load` before either runs
its `Store`, after which both spawned tasks receive and fetch. -/
def racySched : List Nat := [0, 1, 0, 1, 2, 3, 2, 3, 2, 3]

end Race

namespace SpecModel

/-! ## Definitions following the spec's words (for comparison and for code
missing from src/) -/

open Crawler

/-- Split a character list at the first occurrence of `"://"`, returning
the part before it and the part after it. -/
def breakOnScheme : List Char → Option (List Char × List Char)
  | [] => none
  | c :: rest =>
      if "://".data.isPrefixOf (c :: rest) then some ([], rest.drop 2)
      else
        match breakOnScheme rest with
        | some (a, b) => some (c :: a, b)
        | none => none

/-- Following the spec's words (§4.1/§2): the host of a fully qualified
URL — the text between `"://"` and the next `/`, `?`, `#` or `:`. -/
def hostOf (url : String) : String :=
  match breakOnScheme url.data with
  | some (_, rest) =>
      String.mk (rest.takeWhile (fun c => c != '/' && c != '?' && c != '#' && c != ':'))
  | none => ""

/-- Following the spec's words (§4.3): resolving a root-relative path
against a base URL keeps the base's scheme and host and replaces the path. -/
def specResolve (base path : String) : String :=
  let scheme := String.mk ((base.data).takeWhile (fun c => c != ':'))
  scheme ++ "://" ++ hostOf base ++ path

/-- Modelled from the spec: `InvalidSeedURL` — the startup error of the
later revision's `Init` whose body is absent from src/ (only its tests in
`src/crawler_test.go` remain). -/
inductive InitError where
  | invalidSeedURL (url : String) : InitError
  deriving Repr, DecidableEq

/-- Modelled from the spec: the seed "must parse as an absolute URL with a
non-empty host" (§6) — a non-empty scheme, the `"://"` separator, and a
non-empty host. -/
def seedParsesAbsoluteWithHost (s : String) : Bool :=
  match breakOnScheme s.data with
  | some (scheme, _) =>
      !scheme.isEmpty && scheme.all (fun c => c.isAlpha) && !(hostOf s).isEmpty
  | none => false

/-- Modelled from the spec: the later revision's `Init` (present in the
repository only through its tests in `src/crawler_test.go`; src/ lacks its
body) validates the seed before any task is spawned, failing with
`InvalidSeedURL`, and otherwise initialises the crawler as `New` does. -/
def Init (baseSite : String) : Except InitError CrawlerS :=
  if seedParsesAbsoluteWithHost baseSite then .ok (New none baseSite)
  else .error (.invalidSeedURL baseSite)

/-- Modelled from the spec: initialisation followed by the crawl proper —
on an invalid seed the error is returned "before any task is spawned and
before any fetcher call occurs", so the fetcher is never consulted. -/
def initAndCrawl (baseSite : String) (fetch : String → FetchOutcome)
    (fuel : Nat) : Except InitError CrawlerS :=
  (Init baseSite).map (fun c => runCrawl fetch fuel (Start c))

end SpecModel

namespace Crawler

/-! ## Fetch oracles used by concrete instantiations -/

/-- Oracle: every fetch succeeds at the transport level but answers HTTP
status 404 with an empty body (Go's `http.Get` returns `err == nil` here). -/
def fetch404 : String → FetchOutcome := fun _ => .response 404 (some "")

/-- Oracle: every fetch fails at the transport level. -/
def fetchTransErr : String → FetchOutcome := fun _ => .transportError

/-- Oracle: every fetch succeeds with a page containing the single relative
link `/b`. -/
def fetchRelB : String → FetchOutcome :=
  fun _ => .response 200 (some "href=\"/b\"")

/-! ## Helper lemmas -/

/-- The claim loop over the children never touches `dones`. -/
theorem claimLoop_dones (xs : List String) : ∀ c : CrawlerS,
    (claimLoop xs c).dones = c.dones := by
  induction xs with
  | nil => intro c; rfl
  | cons x xs ih =>
      intro c
      rw [claimLoop, ih]
      cases h : c.visited.contains x <;> simp [h, addSite]

/-- The claim loop over the children never touches the sitemap. -/
theorem claimLoop_sitemap (xs : List String) : ∀ c : CrawlerS,
    (claimLoop xs c).sitemap = c.sitemap := by
  induction xs with
  | nil => intro c; rfl
  | cons x xs ih =>
      intro c
      rw [claimLoop, ih]
      cases h : c.visited.contains x <;> simp [h, addSite]

/-- The claim loop over the children never calls the fetcher. -/
theorem claimLoop_fetchLog (xs : List String) : ∀ c : CrawlerS,
    (claimLoop xs c).fetchLog = c.fetchLog := by
  induction xs with
  | nil => intro c; rfl
  | cons x xs ih =>
      intro c
      rw [claimLoop, ih]
      cases h : c.visited.contains x <;> simp [h, addSite]

/-- Each URL the claim loop claims is simultaneously enqueued and counted:
`adds` and the queue length move in lockstep. -/
theorem claimLoop_balance (xs : List String) : ∀ c : CrawlerS,
    (claimLoop xs c).adds + c.urls.length
      = c.adds + (claimLoop xs c).urls.length := by
  induction xs with
  | nil => intro c; rfl
  | cons x xs ih =>
      intro c
      rw [claimLoop]
      cases h : c.visited.contains x
      · rw [if_neg (by simp [h])]
        have h2 := ih (addSite c x)
        have ha : (addSite c x).adds = c.adds + 1 := rfl
        have hu : (addSite c x).urls.length = c.urls.length + 1 := by
          simp [addSite]
        rw [ha, hu] at h2
        omega
      · rw [if_pos (by simp [h])]
        exact ih c

/-- Looking up the key just stored in the sitemap yields the stored value. -/
theorem lookup_mapStore (m : List (String × List String)) (k : String) (v : List String) :
    (mapStore m k v).lookup k = some v := by
  simp [mapStore, List.lookup]

/-- The scan emits matches at positions that are at least the starting
position and strictly increasing: matches come back in document order. -/
theorem scanAll_fst_mono (re : Re) : ∀ (n pos : Nat) (s : List Char),
    (∀ q ∈ (scanAll re n pos s).map Prod.fst, pos ≤ q)
    ∧ List.Pairwise (fun a b => a < b) ((scanAll re n pos s).map Prod.fst) := by
  intro n
  induction n with
  | zero => intro pos s; simp [scanAll]
  | succ n ih =>
      intro pos s
      rw [scanAll]
      cases hf : firstRem re s with
      | none =>
          simp only [hf]
          by_cases he : s.isEmpty
          · simp [he]
          · rw [if_neg he]
            obtain ⟨hlb, hpw⟩ := ih (pos + 1) (s.drop 1)
            refine ⟨fun q hq => ?_, hpw⟩
            have := hlb q hq
            omega
      | some r =>
          simp only [hf]
          by_cases hlen : r.length < s.length
          · rw [if_pos hlen]
            obtain ⟨hlb, hpw⟩ := ih (pos + (s.length - r.length)) r
            constructor
            · intro q hq
              simp only [List.map_cons, List.mem_cons] at hq
              rcases hq with rfl | hq
              · omega
              · have := hlb q hq
                omega
            · simp only [List.map_cons]
              refine List.pairwise_cons.mpr ⟨fun b hb => ?_, hpw⟩
              have := hlb b hb
              omega
          · rw [if_neg hlen]
            obtain ⟨hlb, hpw⟩ := ih (pos + 1) (s.drop 1)
            constructor
            · intro q hq
              simp only [List.map_cons, List.mem_cons] at hq
              rcases hq with rfl | hq
              · omega
              · have := hlb q hq
                omega
            · simp only [List.map_cons]
              refine List.pairwise_cons.mpr ⟨fun b hb => ?_, hpw⟩
              have := hlb b hb
              omega

/-- The success tail never touches `dones` or `fetchLog`, keeps `adds` and
the queue length in lockstep, and its sitemap maps the current URL to the
child list built from the page. -/
theorem successBody_facts (url html : String) (c : CrawlerS) :
    (successBody url html c).dones = c.dones
    ∧ (successBody url html c).fetchLog = c.fetchLog
    ∧ (successBody url html c).adds + c.urls.length
        = c.adds + (successBody url html c).urls.length
    ∧ (successBody url html c).sitemap.lookup url = some (mkChildren c.domain html) := by
  rw [successBody]
  refine ⟨?_, ?_, ?_, ?_⟩
  · simp [claimLoop_dones]
  · simp [claimLoop_fetchLog]
  · have h2 := claimLoop_balance (mkChildren c.domain html)
      { c with sitemap := mapStore c.sitemap url (mkChildren c.domain html) }
    simpa using h2
  · simp [claimLoop_sitemap, lookup_mapStore]

/-- The deferred `wg.Done()` fires exactly once on every exit path of the
task body. -/
theorem crawlBody_dones (fetch : String → FetchOutcome) (url : String) (c : CrawlerS) :
    ((crawlBody fetch url c).1).dones = c.dones + 1 := by
  cases h : matchesIgnoreSuffix c url with
  | true => simp [crawlBody, h, finishTask]
  | false =>
      simp only [crawlBody, h, Bool.false_eq_true, if_false]
      cases hf : fetch url with
      | transportError => simp [finishTask]
      | response code body =>
          cases body with
          | none => simp [finishTask]
          | some html =>
              simp only [finishTask]
              exact congrArg (· + 1) (successBody_facts url html _).1

/-- Each task, across its whole body, keeps `adds` and the queue length in
lockstep. -/
theorem crawlBody_balance (fetch : String → FetchOutcome) (url : String) (c : CrawlerS) :
    ((crawlBody fetch url c).1).adds + c.urls.length
      = c.adds + ((crawlBody fetch url c).1).urls.length := by
  cases h : matchesIgnoreSuffix c url with
  | true => simp [crawlBody, h, finishTask]
  | false =>
      simp only [crawlBody, h, Bool.false_eq_true, if_false]
      cases hf : fetch url with
      | transportError => simp [finishTask]
      | response code body =>
          cases body with
          | none => simp [finishTask]
          | some html =>
              simp only [finishTask]
              exact (successBody_facts url html _).2.2.1

/-- The sequential run preserves the balance "`adds` = `dones` + queued":
every accepted URL is either still queued or has had its task's `Done()`. -/
theorem runCrawl_balance (fetch : String → FetchOutcome) : ∀ (n : Nat) (c : CrawlerS),
    c.adds = c.dones + c.urls.length →
    (runCrawl fetch n c).adds
      = (runCrawl fetch n c).dones + (runCrawl fetch n c).urls.length := by
  intro n
  induction n with
  | zero => intro c h; simpa [runCrawl] using h
  | succ n ih =>
      intro c h
      cases hq : c.urls with
      | nil =>
          have hs : crawlStep fetch c = none := by simp [crawlStep, hq]
          simp only [runCrawl, hs]
          exact h
      | cons url rest =>
          have hs : crawlStep fetch c
              = some ((crawlBody fetch url { c with urls := rest }).1,
                      (crawlBody fetch url { c with urls := rest }).2) := by
            simp [crawlStep, hq]
          simp only [runCrawl, hs]
          apply ih
          have hb := crawlBody_balance fetch url { c with urls := rest }
          have hd := crawlBody_dones fetch url { c with urls := rest }
          have e1 : ({ c with urls := rest } : CrawlerS).adds = c.adds := rfl
          have e2 : ({ c with urls := rest } : CrawlerS).dones = c.dones := rfl
          have e3 : ({ c with urls := rest } : CrawlerS).urls = rest := rfl
          rw [e1, e3] at hb
          rw [e2] at hd
          have hql : c.urls.length = rest.length + 1 := by rw [hq]; rfl
          omega

end Crawler

/-! ## The claims -/

open Crawler Race SpecModel

/-- Claim C1: the spec requires the Visited Set's check-and-insert to be a
single atomic step so that in every interleaving no two tasks both claim,
enqueue, and fetch the same URL; the code instead performs a separate
`visited.Load` (crawler.go:291) and `visited.Store` (crawler.go:215), and in
the interleaving `racySched` — both tasks load before either stores — the
same URL `"u"` is claimed, enqueued, and fetched by both tasks: the fetch
log for `"u"` has length 2, refuting at-most-once fetching. -/
theorem claimC1_racy_interleaving_double_fetch :
    (Race.run racySched twoTasksInit).fetchLog.count "u" = 2 := by decide

/-- Claim C2: the claim says a fetch answered with HTTP status ≥ 300 makes
the task fail, retracts the URL from the Visited Set, and creates no sitemap
entry.  The code never inspects the status code and never deletes from
`visited`: with every fetch answering status 404 (and an empty body), the
task for the seed terminates with NO error (`none`), DOES create the sitemap
entry (an empty child list), and the URL REMAINS in the Visited Set. -/
theorem claimC2_status404_not_failed_not_retracted :
    ((crawlStep fetch404 (Start (New none "https://monzo.com"))).map
      (fun r => (r.2, r.1.sitemap.lookup "https://monzo.com",
                 r.1.visited.contains "https://monzo.com")))
    = some (none, some [], true) := by decide

/-- Claim C3: every task decrements the completion counter exactly once on
every exit path (skipped, fetch failure, decode failure, successful
linking) — the deferred `wg.Done()`; `Wait` returns immediately when no
task was ever started (fresh crawler: zero adds, zero dones); and whenever
the accepted/completed balance `adds = dones + queued` holds, a sequential
run that drains the queue ends with every increment matched by a decrement,
so `Wait` returns. -/
theorem claimC3_done_once_and_wait (fetch : String → FetchOutcome) (url b : String)
    (c c2 : CrawlerS) (n : Nat) :
    ((crawlBody fetch url c).1).dones = c.dones + 1
    ∧ waitCanReturn (New none b) = true
    ∧ (c2.adds = c2.dones + c2.urls.length →
        (runCrawl fetch n c2).urls = [] →
        waitCanReturn (runCrawl fetch n c2) = true) := by
  refine ⟨crawlBody_dones fetch url c, rfl, fun hinv hurls => ?_⟩
  have hb := runCrawl_balance fetch n c2 hinv
  have hl : (runCrawl fetch n c2).urls.length = 0 := by rw [hurls]; rfl
  simp only [waitCanReturn, beq_iff_eq]
  omega

/-- Witness for C3 at a concrete crawl: seed `https://monzo.com`, every
fetch a transport error, two scheduler steps drain the queue and `Wait`
returns. -/
theorem claimC3_witness :
    waitCanReturn (runCrawl fetchTransErr 2 (Start (New none "https://monzo.com"))) = true :=
  (claimC3_done_once_and_wait fetchTransErr "x" "y" zeroValue
    (Start (New none "https://monzo.com")) 2).2.2 (by decide) (by decide)

/-- Claim C5: the claim says each page's sitemap entry is written exactly
once and never mutated.  Because the visited check-and-insert is a separate
`Load` then `Store` (see C1), the interleaving `racySched` lets two tasks
both claim and fetch the same URL `"u"` and both execute
`sitemap.Store(u, children)` (crawler.go:286): the store log for `"u"` has
length 2 — the entry is written twice, the second write overwriting the
first. -/
theorem claimC5_racy_interleaving_double_sitemap_store :
    (Race.run racySched twoTasksInit).storeLog.count "u" = 2 := by decide

/-- Counterexample to claim C6: relative links are NOT resolved against the
crawl's base/seed URL.  With seed `https://example.com` (so resolving `/b`
against the seed gives `https://example.com/b`), crawling a page that
contains `href="/b"` records the child `https://monzo.com/b` — the
`"https://" + c.domain` prefix with the domain `New` hardcodes — which
differs from the seed-resolved URL. -/
theorem claimC6_counterexample_hardcoded_domain :
    ((crawlStep fetchRelB (addSite (New none "https://example.com") "https://example.com/p")).map
      (fun r => r.1.sitemap.lookup "https://example.com/p"))
      = some (some ["https://monzo.com/b"])
    ∧ specResolve "https://example.com" "/b" = "https://example.com/b"
    ∧ ("https://monzo.com/b" : String) ≠ "https://example.com/b" := by decide

/-- Claim C6 as amended: every extracted relative link is resolved by
prefixing `"https://" ++ c.domain` — a crawl-global constant (which `New`
hardcodes to `monzo.com` irrespective of the seed), never the crawled
page's own URL: the sitemap entry recorded for any page depends only on the
page's HTML and the crawler's domain, its relative part being exactly the
`"https://" ++ c.domain ++ x` resolutions. -/
theorem claimC6_amended_resolution_against_domain (fetch : String → FetchOutcome)
    (url html : String) (c : CrawlerS) (code : Nat)
    (hf : fetch url = FetchOutcome.response code (some html))
    (hi : matchesIgnoreSuffix c url = false) :
    ((crawlBody fetch url c).1).sitemap.lookup url
      = some ((FindRelativeLinks html).map (fun x => "https://" ++ c.domain ++ x)
          ++ FindAbsoluteLinks html (some c.domain)) := by
  simp only [crawlBody, hi, Bool.false_eq_true, if_false, hf]
  have h := (successBody_facts url html { c with fetchLog := c.fetchLog ++ [url] }).2.2.2
  simpa [finishTask, mkChildren] using h

/-- Witness for the amended C6 at a concrete page. -/
theorem claimC6_amended_witness :
    ((crawlBody fetchRelB "https://example.com/p" (New none "https://example.com")).1).sitemap.lookup
        "https://example.com/p"
      = some ((FindRelativeLinks "href=\"/b\"").map
            (fun x => "https://" ++ (New none "https://example.com").domain ++ x)
          ++ FindAbsoluteLinks "href=\"/b\"" (some (New none "https://example.com").domain)) :=
  claimC6_amended_resolution_against_domain fetchRelB "https://example.com/p" "href=\"/b\""
    (New none "https://example.com") 200 rfl (by decide)

/-- Claim C7: a URL ending in one of the configured ignore suffixes
(case-sensitive `strings.HasSuffix`) makes the task return `nil`
immediately: the resulting state equals the input state except for the one
deferred `wg.Done()` — in particular the fetch log and the sitemap are
untouched (the fetcher argument is not even consulted) and no error is
produced. -/
theorem claimC7_ignored_suffix_skips (fetch : String → FetchOutcome) (url : String)
    (c : CrawlerS) (h : matchesIgnoreSuffix c url = true) :
    crawlBody fetch url c = ({ c with dones := c.dones + 1 }, none) := by
  simp [crawlBody, h, finishTask]

/-- Witness for C7: `https://monzo.com/a.pdf` ends in the configured suffix
`pdf`. -/
theorem claimC7_witness :
    matchesIgnoreSuffix (New none "https://monzo.com") "https://monzo.com/a.pdf" = true
    ∧ crawlBody fetch404 "https://monzo.com/a.pdf" (New none "https://monzo.com")
        = ({ New none "https://monzo.com" with
              dones := (New none "https://monzo.com").dones + 1 }, none) :=
  ⟨by decide, claimC7_ignored_suffix_skips fetch404 "https://monzo.com/a.pdf"
    (New none "https://monzo.com") (by decide)⟩

/-- Claim C8: the seed `"hello"` (no scheme, no host) does not parse as an
absolute URL with a non-empty host, so initialisation fails with
`InvalidSeedURL` before any task is spawned — and before any fetcher call:
the result is the same error for EVERY fetcher.  A well-formed seed such as
`https://monzo.com/abcde` passes validation (matching the repository's
`TestInit` tests). -/
theorem claimC8_invalid_seed_rejected (fetch : String → FetchOutcome) (fuel : Nat) :
    initAndCrawl "hello" fetch fuel
      = Except.error (InitError.invalidSeedURL "hello")
    ∧ seedParsesAbsoluteWithHost "https://monzo.com/abcde" = true :=
  ⟨rfl, by decide⟩

/-- Counterexample to claim C9: the claim asserts the extractors never
raise for EVERY supplied filter, but `FindAbsoluteLinks` splices the filter
into the pattern unescaped and calls `regexp.MustCompile`
(crawler.go:388-391), which panics when the resulting pattern does not
parse as RE2: the filter `"("` leaves the pattern with an unmatched
parenthesis, so the compile step fails (`none` = panic) and the pipeline
raises instead of returning — while a metacharacter-free filter such as
`monzo.com` compiles and returns normally. -/
theorem claimC9_counterexample_unparsable_filter :
    FindAbsoluteLinksChecked "href=\"https://monzo.com/\"" (some "(") = none
    ∧ MustCompileAbsolute (some "(") = none
    ∧ FindAbsoluteLinksChecked "href=\"https://monzo.com/\"" (some "monzo.com")
        = some (FindAbsoluteLinks "href=\"https://monzo.com/\"" (some "monzo.com")) :=
  ⟨rfl, rfl, rfl⟩

/-- Claim C9 as amended: both extractors are pure, deterministic and
order-preserving — two invocations on the same input are identical, and the
match positions underlying the output are strictly increasing, so the links
come back in document order; `FindRelativeLinks` is total for every HTML
string (its pattern is a constant that always compiles), and
`FindAbsoluteLinks` never raises for every HTML string and every filter
whose spliced pattern compiles — in particular every filter free of RE2
metacharacters (dots allowed) and the nil filter — the full pipeline then
returning exactly the unchecked scan's value; a filter that breaks RE2
parsing instead panics `regexp.MustCompile` (see the counterexample). -/
theorem claimC9_amended_deterministic_ordered (html : String) (dom : Option String) :
    FindRelativeLinks html = FindRelativeLinks html
    ∧ FindAbsoluteLinks html dom = FindAbsoluteLinks html dom
    ∧ List.Pairwise (fun a b => a < b) ((relAllMatches html).map Prod.fst)
    ∧ List.Pairwise (fun a b => a < b) ((absAllMatches html dom).map Prod.fst)
    ∧ (∀ d : String, d.data.all (fun c => !isRe2Meta c) = true →
        FindAbsoluteLinksChecked html (some d)
          = some (FindAbsoluteLinks html (some d)))
    ∧ FindAbsoluteLinksChecked html none = some (FindAbsoluteLinks html none) := by
  refine ⟨rfl, rfl,
    (scanAll_fst_mono relativeRe (html.data.length + 1) 0 html.data).2,
    (scanAll_fst_mono (absoluteRe (absDomRe dom)) (html.data.length + 1) 0 html.data).2,
    fun d hd => ?_, rfl⟩
  simp [FindAbsoluteLinksChecked, MustCompileAbsolute, compileDomain, hd,
    FindAbsoluteLinks, absAllMatches, absDomRe]

/-- Witness for the amended C9's no-raise-on-compiling-filters part at a
concrete page and the repository's own filter. -/
theorem claimC9_amended_witness :
    FindAbsoluteLinksChecked "href=\"https://monzo.com/x\"" (some "monzo.com")
      = some (FindAbsoluteLinks "href=\"https://monzo.com/x\"" (some "monzo.com")) :=
  (claimC9_amended_deterministic_ordered "href=\"https://monzo.com/x\"" none).2.2.2.2.1
    "monzo.com" (by decide)

/-- Claim C10: calling `New` on a nil receiver allocates a fresh zero-valued
crawler and returns it fully initialised: for every base-site string, the
result has that base site, the (hardcoded) domain set, a fresh empty URL
channel of the fixed capacity `MAX_CHAN_URLS = 100`, the default
ignore-suffix list, and a pristine completion counter. -/
theorem claimC10_new_nil_receiver (base : String) :
    (New none base).baseSite = base
    ∧ (New none base).domain = "monzo.com"
    ∧ (New none base).urlsCap = MAX_CHAN_URLS
    ∧ (New none base).urlsCap = 100
    ∧ (New none base).urls = []
    ∧ (New none base).ignoreSuffixes = ["pdf", "png", "jpeg"]
    ∧ (New none base).adds = 0
    ∧ (New none base).dones = 0 :=
  ⟨rfl, rfl, rfl, rfl, rfl, rfl, rfl, rfl⟩
